import Mathlib

/-!
Verification development for the medical-guide extractor (`app.py`).

The program is a single-file application.  Its core, embedded here, is:

* `extract_text_from_image` (app.py 44-61): filters the OCR engine's word
  table (drop null texts, keep confidence `> 30`, strip texts, drop empties);
* `find_value_near_label` (app.py 93-132): the spatial field locator;
* `extract_medical_data_from_structure` (app.py 134-165): builds the
  four-field record, post-processing only the authorization date;
* `process_uploaded_file` (app.py 63-86): per-document boundary, rasterizes
  the first PDF page (or opens the image) and runs OCR, catching any failure
  and returning an empty table;
* the module-level batch loop (app.py 294-320): iterates uploaded files in
  order, appending one row per file whose OCR table is nonempty.

External collaborators (Tesseract, PyMuPDF, PIL, Streamlit) are modelled as
oracles: a page carries the word table the OCR engine would produce for its
rasterized, preprocessed image, and the embedded text PyMuPDF would report;
a file records whether decoding would raise.  Machine text is `String`
(Python `str`), coordinates are `Int` (pixel units), and the one fractional
quantity (`label_y_center`, a Python float from true division by 2) is `ℚ`,
which is exact for these values.
-/

/-- Whitespace class of Python `str.strip()` and of `\s` in the label
regexes (the ASCII part, which is what OCR text can contain). -/
def pyIsSpace (c : Char) : Bool :=
  c = ' ' || c = '\t' || c = '\n' || c = '\r' || c = '\x0b' || c = '\x0c'

/-- Leading and trailing whitespace removal on a character list. -/
def stripChars (l : List Char) : List Char :=
  ((l.dropWhile pyIsSpace).reverse.dropWhile pyIsSpace).reverse

/-- Python `str.strip()`. -/
def pyStrip (s : String) : String :=
  String.mk (stripChars s.data)

/-- Python `' '.join(...)`: the texts separated by single spaces. -/
def joinSpace : List String → String
  | [] => ""
  | [s] => s
  | s :: r :: rest => s ++ " " ++ joinSpace (r :: rest)

/-- Case folding for the `flags=re.IGNORECASE` matching in
`find_value_near_label` (app.py 99): ASCII lowering plus the two non-ASCII
letters that occur in the four label patterns. -/
def foldCase (c : Char) : Char :=
  if c = 'Ç' then 'ç' else if c = 'Ã' then 'ã' else c.toLower

/-- Match a literal pattern (given already lowercased) at the head of the
input, case-insensitively; return the remaining input on success. -/
def matchLit : List Char → List Char → Option (List Char)
  | [], l => some l
  | _ :: _, [] => none
  | p :: ps, c :: cs => if foldCase c = p then matchLit ps cs else none

/-- The regex `Guia\s*Principal` (app.py 145) matched at the head of the
input.  `\s*` followed by a non-space literal is exactly "skip spaces". -/
def matchGuiaPrincipalAt (l : List Char) : Bool :=
  match matchLit ("guia".data) l with
  | some rest => (matchLit ("principal".data) (rest.dropWhile pyIsSpace)).isSome
  | none => false

/-- The regex `Registro\s*ANS` (app.py 148) matched at the head. -/
def matchRegistroANSAt (l : List Char) : Bool :=
  match matchLit ("registro".data) l with
  | some rest => (matchLit ("ans".data) (rest.dropWhile pyIsSpace)).isSome
  | none => false

/-- The regex `Autoriza[çc][ãa]o` (app.py 151) matched at the head. -/
def matchAutorizacaoAt (l : List Char) : Bool :=
  match matchLit ("autoriza".data) l with
  | some (c1 :: c2 :: c3 :: _) =>
      (foldCase c1 == 'ç' || foldCase c1 == 'c') &&
      (foldCase c2 == 'ã' || foldCase c2 == 'a') &&
      (foldCase c3 == 'o')
  | _ => false

/-- The regex `10\s*-\s*Nome` (app.py 157) matched at the head. -/
def matchNomeAt (l : List Char) : Bool :=
  match matchLit ("10".data) l with
  | some rest =>
    match rest.dropWhile pyIsSpace with
    | '-' :: rest2 => (matchLit ("nome".data) (rest2.dropWhile pyIsSpace)).isSome
    | _ => false
  | none => false

/-- `re.search` semantics of `str.contains`: the matcher fires at some
position of the text. -/
def searchAnywhere (f : List Char → Bool) : List Char → Bool
  | [] => f []
  | c :: cs => f (c :: cs) || searchAnywhere f cs

/-- Containment test of `Guia\s*Principal`, case-insensitive. -/
def patGuiaPrincipal (s : String) : Bool := searchAnywhere matchGuiaPrincipalAt s.data

/-- Containment test of `Registro\s*ANS`, case-insensitive. -/
def patRegistroANS (s : String) : Bool := searchAnywhere matchRegistroANSAt s.data

/-- Containment test of `Autoriza[çc][ãa]o`, case-insensitive. -/
def patAutorizacao (s : String) : Bool := searchAnywhere matchAutorizacaoAt s.data

/-- Containment test of `10\s*-\s*Nome`, case-insensitive. -/
def patNome (s : String) : Bool := searchAnywhere matchNomeAt s.data

/-- ASCII digit, the `\d` of the date regex on OCR text. -/
def isDigitChar (c : Char) : Bool := '0' ≤ c && c ≤ '9'

/-- Position `i` of `m` holds a digit. -/
def digitAt (m : List Char) (i : Nat) : Bool :=
  match m.get? i with
  | some c => isDigitChar c
  | none => false

/-- Position `i` of `m` holds a slash. -/
def slashAt (m : List Char) (i : Nat) : Bool := m.get? i == some '/'

/-- `m` is a complete match of `\d{2}/\d{2}/\d{4}` (app.py 152). -/
def dateShape (m : List Char) : Bool :=
  (m.length == 10) && digitAt m 0 && digitAt m 1 && slashAt m 2 &&
    digitAt m 3 && digitAt m 4 && slashAt m 5 && digitAt m 6 &&
    digitAt m 7 && digitAt m 8 && digitAt m 9

/-- The date regex matched at the current position: the pattern is
fixed-length, so a match here is exactly the next ten characters. -/
def dateHere (l : List Char) : Option (List Char) :=
  if dateShape (l.take 10) then some (l.take 10) else none

/-- `re.search(r'(\d{2}/\d{2}/\d{4})', ...)`: scan left to right and return
the leftmost match. -/
def findDate : List Char → Option (List Char)
  | [] => none
  | c :: cs =>
    match dateHere (c :: cs) with
    | some m => some m
    | none => findDate cs

/-- One row of the structured OCR word table after filtering: the `text`,
`left`, `top`, `width`, `height` columns used by the field locator
(the spec's RecognizedWord). -/
structure RecognizedWord where
  text : String
  left : Int
  top : Int
  width : Int
  height : Int
  deriving DecidableEq, Repr

/-- One raw row of `pytesseract.image_to_data` output: `text` is `none`
when the cell is NaN (dropped by `dropna`), `conf` is the confidence
(integer-valued in the engine's 0-100 scale, -1 on non-word rows). -/
structure OcrEntry where
  text : Option String
  conf : Int
  left : Int
  top : Int
  width : Int
  height : Int
  deriving DecidableEq, Repr

/-- The sentinel `"Não encontrado"` (app.py 101, 123). -/
def naoEncontrado : String := "Não encontrado"

/-- The sentinel `"OCR falhou"` (app.py 138-139). -/
def ocrFalhou : String := "OCR falhou"

/-- The record built by `extract_medical_data_from_structure`: exactly the
four fixed fields, all total strings (never absent, never null). -/
structure ExtractionRecord where
  numeroGuia : String
  registroANS : String
  dataAutorizacao : String
  nome : String
  deriving DecidableEq, Repr

/-- Stable insertion into a list sorted by `left`. -/
def insertByLeft (w : RecognizedWord) : List RecognizedWord → List RecognizedWord
  | [] => [w]
  | x :: xs => if w.left ≤ x.left then w :: x :: xs else x :: insertByLeft w xs

/-- `sort_values(by='left')` (app.py 126): stable sort on the `left`
column (ties keep table order). -/
def sortByLeft : List RecognizedWord → List RecognizedWord
  | [] => []
  | w :: ws => insertByLeft w (sortByLeft ws)

/-- The search-area condition of `find_value_near_label` (app.py 105-120),
written literally: `label_x = left + width`, `label_y_center = top + height/2`
(Python true division, exact in `ℚ`); a candidate row passes when its `top`
lies in `[label_y_center - height, label_y_center + height]` and its `left`
lies in `[label_x, label_x + max_distance_x]` (all bounds inclusive, as the
`>=`/`<=` comparisons in the source). -/
def inSearchAreaSpec (label_row : RecognizedWord) (max_distance_x : Int)
    (w : RecognizedWord) : Prop :=
  let label_x : Int := label_row.left + label_row.width
  let label_y_center : ℚ := (label_row.top : ℚ) + (label_row.height : ℚ) / 2
  let search_top : ℚ := label_y_center - (label_row.height : ℚ)
  let search_bottom : ℚ := label_y_center + (label_row.height : ℚ)
  let search_left : Int := label_x
  let search_right : Int := label_x + max_distance_x
  search_top ≤ (w.top : ℚ) ∧ (w.top : ℚ) ≤ search_bottom ∧
    search_left ≤ w.left ∧ w.left ≤ search_right

/-- The search-area test as executed: the `ℚ` comparisons of
`inSearchAreaSpec` multiplied through by 2, which keeps every quantity an
integer (the theorem `inSearchArea_iff` below proves the two agree), so that
concrete instances reduce inside the kernel. -/
def inSearchArea (label_row : RecognizedWord) (max_distance_x : Int)
    (w : RecognizedWord) : Bool :=
  decide (2 * label_row.top - label_row.height ≤ 2 * w.top) &&
    decide (2 * w.top ≤ 2 * label_row.top + 3 * label_row.height) &&
    decide (label_row.left + label_row.width ≤ w.left) &&
    decide (w.left ≤ label_row.left + label_row.width + max_distance_x)

/-- Second stage of `find_value_near_label` (app.py 115-129): filter the
candidate rows in the search area of the given label row, return the
`"Não encontrado"` sentinel when none, else sort them by `left`, join their
texts with single spaces and strip the result. -/
def found_value (ocr_df : List RecognizedWord) (label_row : RecognizedWord)
    (max_distance_x : Int) : String :=
  match ocr_df.filter (inSearchArea label_row max_distance_x) with
  | [] => naoEncontrado
  | v :: vs => pyStrip (joinSpace ((sortByLeft (v :: vs)).map RecognizedWord.text))

/-- `find_value_near_label` (app.py 93-132).  The compiled label regex is
embedded as its containment test `label_test` on a row's text (`str.contains`
with `flags=re.IGNORECASE`; the concrete instances are `patGuiaPrincipal`,
`patRegistroANS`, `patAutorizacao`, `patNome`).  The first matching row
(`label_rows.iloc[0]`) anchors the search area of `found_value`.  The
surrounding `try/except` of the source cannot fire on this pure pipeline and
has no counterpart here. -/
def find_value_near_label (ocr_df : List RecognizedWord)
    (label_test : String → Bool) (max_distance_x : Int) : String :=
  match ocr_df.filter (fun w => label_test w.text) with
  | [] => naoEncontrado
  | label_row :: _ => found_value ocr_df label_row max_distance_x

/-- The date post-processing of app.py 152-154: when the joined candidate
text contains a `\d{2}/\d{2}/\d{4}` substring, the leftmost such substring
replaces it; otherwise the text is kept unchanged. -/
def date_postprocess (s : String) : String :=
  match findDate s.data with
  | some m => String.mk m
  | none => s

/-- `extract_medical_data_from_structure` (app.py 134-165).  On an empty
table every field is the `"OCR falhou"` sentinel; otherwise the four fields
are located spatially, and only the authorization date is post-processed by
the date regex (the first `\d{2}/\d{2}/\d{4}` substring replaces the joined
text when present).  The trailing `final_data = {...  data.get(...)}` of the
source is the identity, since all four keys are always set. -/
def extract_medical_data_from_structure (ocr_df : List RecognizedWord) :
    ExtractionRecord :=
  if ocr_df.isEmpty then
    { numeroGuia := ocrFalhou, registroANS := ocrFalhou,
      dataAutorizacao := ocrFalhou, nome := ocrFalhou }
  else
    let guia := find_value_near_label ocr_df patGuiaPrincipal 250
    let ans := find_value_near_label ocr_df patRegistroANS 200
    let dataAut := date_postprocess (find_value_near_label ocr_df patAutorizacao 250)
    let nome := find_value_near_label ocr_df patNome 600
    { numeroGuia := guia, registroANS := ans, dataAutorizacao := dataAut,
      nome := nome }

/-- `extract_text_from_image` (app.py 44-61), downstream of the OCR call:
`dropna(subset=['text'])`, keep `conf > 30`, strip each text, drop rows whose
stripped text is empty. -/
def extract_text_from_image (ocr_rows : List OcrEntry) : List RecognizedWord :=
  let dropped := ocr_rows.filter (fun r => r.text.isSome)
  let confident := dropped.filter (fun r => 30 < r.conf)
  let stripped := confident.map (fun r =>
    ({ text := pyStrip (r.text.getD ""), left := r.left, top := r.top,
       width := r.width, height := r.height } : RecognizedWord))
  stripped.filter (fun w => w.text != "")

/-- One rasterizable unit of a document.  `embeddedText` is the selectable
text PyMuPDF's `get_text` would report (never consulted by this version of
the code); `ocrRows` is the word table Tesseract would produce for the
page's 300-DPI rasterized, preprocessed image (the OCR engine is an external
oracle). -/
structure PdfPage where
  embeddedText : String
  ocrRows : List OcrEntry
  deriving DecidableEq, Repr

/-- Declared kind of an uploaded file (`uploaded_file.type`). -/
inductive FileKind where
  | pdf
  | image
  deriving DecidableEq, Repr

/-- One uploaded file.  `decodeOk` is false when opening the bytes raises
(corrupt PDF/image); an image file has a single implicit page. -/
structure UploadedFile where
  name : String
  kind : FileKind
  pages : List PdfPage
  decodeOk : Bool
  deriving DecidableEq, Repr

/-- `process_uploaded_file` (app.py 63-86).  Both branches converge on
OCR-ing the first page: the PDF branch rasterizes `load_page(0)` at 300 DPI,
the image branch opens the single implicit page.  Any exception (decode
failure, or `load_page(0)` on a zero-page PDF) is caught and the empty table
is returned.  The embedded text of the pages is never read. -/
def process_uploaded_file (f : UploadedFile) : List RecognizedWord :=
  if f.decodeOk then
    match f.pages with
    | [] => []
    | pg :: _ => extract_text_from_image pg.ocrRows
  else []

/-- One row of the accumulated batch: the source tags each record with the
file name under the `"Arquivo"` key (app.py 310). -/
structure OutRow where
  arquivo : String
  record : ExtractionRecord
  deriving DecidableEq, Repr

/-- The module-level batch loop (app.py 294-320): files are processed in
upload order; a file whose table is nonempty contributes one record tagged
with its name; a file whose table is empty (OCR found nothing, or processing
failed) only triggers a warning and contributes nothing. -/
def batchProcess : List UploadedFile → List OutRow
  | [] => []
  | f :: fs =>
    let ocr_dataframe := process_uploaded_file f
    if ocr_dataframe.isEmpty then batchProcess fs
    else { arquivo := f.name,
           record := extract_medical_data_from_structure ocr_dataframe }
         :: batchProcess fs

/-- Collection step of the spatial locator as the specification states it:
collect the words positioned inside the search rectangle (vertical band =
label's vertical center ± label height, horizontal band = from the label's
right edge to that edge plus the per-field maximum horizontal distance),
sort them left-to-right, join their texts with single spaces; the
"not found" sentinel when none falls in the rectangle. -/
def spec_collect (words : List RecognizedWord) (label_row : RecognizedWord)
    (max_distance_x : Int) : String :=
  match words.filter (inSearchArea label_row max_distance_x) with
  | [] => naoEncontrado
  | v :: vs => joinSpace ((sortByLeft (v :: vs)).map RecognizedWord.text)

/-- The spatial locator as the specification states it (the sentences of
§4.5 behind claim C1): locate the first word matching the label, collect and
join per `spec_collect`, and return the "not found" sentinel when no word
matches the label. -/
def spec_find_value (words : List RecognizedWord)
    (label_test : String → Bool) (max_distance_x : Int) : String :=
  match words.find? (fun w => label_test w.text) with
  | none => naoEncontrado
  | some label_row => spec_collect words label_row max_distance_x

/-- The structured-mode filter exactly as claim C6 states it: drop entries
with empty or whitespace-only text and entries whose confidence is below 30;
retain all remaining entries with their text stripped. -/
def claim_structured_filter (ocr_rows : List OcrEntry) : List RecognizedWord :=
  ocr_rows.filterMap (fun r =>
    match r.text with
    | none => none
    | some t =>
      if 30 ≤ r.conf ∧ pyStrip t ≠ "" then
        some { text := pyStrip t, left := r.left, top := r.top,
               width := r.width, height := r.height }
      else none)

/-- The structured-mode filter with the boundary the code implements:
entries are retained exactly when their text is present, their confidence
exceeds 30 (so confidence 30 itself is dropped), and their stripped text is
nonempty; retained entries carry the stripped text. -/
def spec_structured_filter (ocr_rows : List OcrEntry) : List RecognizedWord :=
  ocr_rows.filterMap (fun r =>
    match r.text with
    | none => none
    | some t =>
      if 30 < r.conf ∧ pyStrip t ≠ "" then
        some { text := pyStrip t, left := r.left, top := r.top,
               width := r.width, height := r.height }
      else none)

/-- A word text as the structured-mode Text Acquirer delivers it (app.py
57-60, embedded as `extract_text_from_image`): nonempty and already stripped
of surrounding whitespace. -/
def sanitizedWord (s : String) : Prop := s ≠ "" ∧ pyStrip s = s

instance sanitizedWordDecidable (s : String) : Decidable (sanitizedWord s) :=
  inferInstanceAs (Decidable (s ≠ "" ∧ pyStrip s = s))

/-- Declarative shape of a `DD/MM/YYYY` match: two digits, a slash, two
digits, a slash, four digits. -/
def dateChars (m : List Char) : Prop :=
  ∃ a b c d e f g h : Char,
    m = [a, b, '/', c, d, '/', e, f, g, h] ∧
      (isDigitChar a ∧ isDigitChar b ∧ isDigitChar c ∧ isDigitChar d ∧
       isDigitChar e ∧ isDigitChar f ∧ isDigitChar g ∧ isDigitChar h)

/-- The text `l` contains the date-shaped substring `m` starting at
position `i`. -/
def dateAt (l : List Char) (i : Nat) (m : List Char) : Prop :=
  dateChars m ∧ (l.drop i).take 10 = m

/-- First character of the list, if any, is not whitespace. -/
def headNotSpace (l : List Char) : Prop :=
  ∀ c, l.head? = some c → pyIsSpace c = false

theorem inSearchArea_iff (label_row : RecognizedWord) (max_distance_x : Int)
    (w : RecognizedWord) :
    inSearchArea label_row max_distance_x w = true ↔
      inSearchAreaSpec label_row max_distance_x w := by
  unfold inSearchArea inSearchAreaSpec
  simp only [Bool.and_eq_true, decide_eq_true_eq]
  constructor
  · rintro ⟨⟨⟨h1, h2⟩, h3⟩, h4⟩
    refine ⟨?_, ?_, h3, h4⟩
    · have h1q : ((2 * label_row.top - label_row.height : Int) : ℚ) ≤
        ((2 * w.top : Int) : ℚ) := by exact_mod_cast h1
      push_cast at h1q
      linarith
    · have h2q : ((2 * w.top : Int) : ℚ) ≤
        ((2 * label_row.top + 3 * label_row.height : Int) : ℚ) := by
        exact_mod_cast h2
      push_cast at h2q
      linarith
  · rintro ⟨h1, h2, h3, h4⟩
    refine ⟨⟨⟨?_, ?_⟩, h3⟩, h4⟩
    · have : ((2 * label_row.top - label_row.height : Int) : ℚ) ≤
        ((2 * w.top : Int) : ℚ) := by push_cast; linarith
      exact_mod_cast this
    · have : ((2 * w.top : Int) : ℚ) ≤
        ((2 * label_row.top + 3 * label_row.height : Int) : ℚ) := by
        push_cast; linarith
      exact_mod_cast this

theorem data_append (s t : String) : (s ++ t).data = s.data ++ t.data := rfl

theorem string_mk_data (s : String) : String.mk s.data = s := rfl

theorem string_eq_empty_iff (s : String) : s = "" ↔ s.data = [] := by
  constructor
  · intro h; rw [h]
  · intro h
    have : String.mk s.data = String.mk [] := by rw [h]
    simpa [string_mk_data] using this

theorem length_dropWhile_le (p : Char → Bool) (l : List Char) :
    (l.dropWhile p).length ≤ l.length := by
  induction l with
  | nil => simp [List.dropWhile]
  | cons c cs ih =>
    rw [List.dropWhile_cons]
    by_cases h : p c = true
    · simp only [h, if_true]
      exact Nat.le_trans ih (Nat.le_succ _)
    · simp [h]

theorem dropWhile_eq_self_of_length (p : Char → Bool) (l : List Char)
    (h : (l.dropWhile p).length = l.length) : l.dropWhile p = l := by
  cases l with
  | nil => simp [List.dropWhile]
  | cons c cs =>
    rw [List.dropWhile_cons] at h ⊢
    by_cases hc : p c = true
    · simp only [hc, if_true] at h
      have := length_dropWhile_le p cs
      simp only [List.length_cons] at h
      omega
    · simp [hc]

theorem dropWhile_eq_self_of_head (p : Char → Bool) (l : List Char)
    (h : ∀ c, l.head? = some c → p c = false) : l.dropWhile p = l := by
  cases l with
  | nil => simp [List.dropWhile]
  | cons c cs =>
    rw [List.dropWhile_cons]
    simp [h c rfl]

theorem head_not_of_dropWhile_eq_self (p : Char → Bool) (l : List Char)
    (h : l.dropWhile p = l) : ∀ c, l.head? = some c → p c = false := by
  cases l with
  | nil => intro c hc; simp at hc
  | cons c cs =>
    intro d hd
    simp only [List.head?_cons, Option.some.injEq] at hd
    subst hd
    rw [List.dropWhile_cons] at h
    by_cases hc : p c = true
    · simp only [hc, if_true] at h
      have hlen := congrArg List.length h
      have := length_dropWhile_le p cs
      simp only [List.length_cons] at hlen
      omega
    · simpa using hc

theorem stripChars_eq_self_iff (l : List Char) :
    stripChars l = l ↔ headNotSpace l ∧ headNotSpace l.reverse := by
  constructor
  · intro h
    unfold stripChars at h
    have hlen := congrArg List.length h
    simp only [List.length_reverse] at hlen
    have hle1 := length_dropWhile_le pyIsSpace l
    have hle2 := length_dropWhile_le pyIsSpace ((l.dropWhile pyIsSpace).reverse)
    simp only [List.length_reverse] at hle2
    have h1len : (l.dropWhile pyIsSpace).length = l.length := by omega
    have h1 : l.dropWhile pyIsSpace = l :=
      dropWhile_eq_self_of_length _ _ h1len
    rw [h1] at h hlen
    have h2len : (l.reverse.dropWhile pyIsSpace).length = l.reverse.length := by
      simp only [List.length_reverse]
      omega
    have h2 : l.reverse.dropWhile pyIsSpace = l.reverse :=
      dropWhile_eq_self_of_length _ _ h2len
    exact ⟨head_not_of_dropWhile_eq_self _ _ h1,
      head_not_of_dropWhile_eq_self _ _ h2⟩
  · rintro ⟨h1, h2⟩
    unfold stripChars
    rw [dropWhile_eq_self_of_head _ _ h1, dropWhile_eq_self_of_head _ _ h2,
      List.reverse_reverse]

theorem pyStrip_eq_self_iff (s : String) :
    pyStrip s = s ↔ headNotSpace s.data ∧ headNotSpace s.data.reverse := by
  rw [← stripChars_eq_self_iff]
  unfold pyStrip
  constructor
  · intro h
    have := congrArg String.data h
    simpa using this
  · intro h; rw [h]

theorem sanitized_data_ne_nil (s : String) (h : s ≠ "") : s.data ≠ [] := by
  intro hd
  exact h ((string_eq_empty_iff s).mpr hd)

theorem joinSpace_data_cons (t : String) (rest : List String) :
    ∃ k : List Char, (joinSpace (t :: rest)).data = t.data ++ k := by
  cases rest with
  | nil => exact ⟨[], by simp [joinSpace]⟩
  | cons r rs =>
    refine ⟨(" ").data ++ (joinSpace (r :: rs)).data, ?_⟩
    show ((t ++ (" ")) ++ joinSpace (r :: rs)).data = _
    rw [data_append, data_append, List.append_assoc]

theorem joinSpace_ne_empty (t : String) (rest : List String) (ht : t ≠ "") :
    joinSpace (t :: rest) ≠ "" := by
  obtain ⟨k, hk⟩ := joinSpace_data_cons t rest
  intro h
  have := congrArg String.data h
  rw [hk] at this
  simp only [String.data] at this
  rcases List.append_eq_nil.mp this with ⟨h1, -⟩
  exact sanitized_data_ne_nil t ht h1

theorem joinSpace_data_ne_nil (t : String) (rest : List String) (ht : t ≠ "") :
    (joinSpace (t :: rest)).data ≠ [] := by
  intro h
  exact joinSpace_ne_empty t rest ht ((string_eq_empty_iff _).mpr h)

theorem head?_append_of_ne_nil (a b : List Char) (ha : a ≠ []) :
    (a ++ b).head? = a.head? := by
  cases a with
  | nil => exact absurd rfl ha
  | cons x xs => rfl

theorem joinSpace_reverse_head (ts : List String) (h : ∀ s ∈ ts, s.data ≠ [])
    (hne : ts ≠ []) :
    ∃ t ∈ ts, (joinSpace ts).data.reverse.head? = t.data.reverse.head? := by
  induction ts with
  | nil => exact absurd rfl hne
  | cons t rest ih =>
    cases rest with
    | nil => exact ⟨t, List.mem_singleton.mpr rfl, rfl⟩
    | cons r rs =>
      have hr : r.data ≠ [] := h r (by simp)
      have hrne : r ≠ "" := fun hh => hr (by rw [hh])
      have hjoin_ne : (joinSpace (r :: rs)).data ≠ [] :=
        joinSpace_data_ne_nil r rs hrne
      obtain ⟨t', ht'mem, ht'eq⟩ :=
        ih (fun s hs => h s (List.mem_cons_of_mem _ hs)) (by simp)
      refine ⟨t', List.mem_cons_of_mem _ ht'mem, ?_⟩
      have hdata : (joinSpace (t :: r :: rs)).data =
          (t ++ (" ")).data ++ (joinSpace (r :: rs)).data := by
        show ((t ++ (" ")) ++ joinSpace (r :: rs)).data = _
        rw [data_append]
      rw [hdata, List.reverse_append]
      rw [head?_append_of_ne_nil _ _ (by
        intro hrev
        exact hjoin_ne (by simpa using congrArg List.reverse hrev))]
      exact ht'eq

theorem pyStrip_joinSpace (ts : List String) (hne : ts ≠ [])
    (h : ∀ s ∈ ts, sanitizedWord s) : pyStrip (joinSpace ts) = joinSpace ts := by
  apply (pyStrip_eq_self_iff _).mpr
  constructor
  · cases ts with
    | nil => exact absurd rfl hne
    | cons t rest =>
      obtain ⟨ht_ne, ht_strip⟩ := h t (by simp)
      obtain ⟨k, hk⟩ := joinSpace_data_cons t rest
      intro c hc
      rw [hk, head?_append_of_ne_nil _ _ (sanitized_data_ne_nil t ht_ne)] at hc
      exact ((pyStrip_eq_self_iff t).mp ht_strip).1 c hc
  · obtain ⟨t', ht'mem, ht'eq⟩ := joinSpace_reverse_head ts
      (fun s hs => sanitized_data_ne_nil s (h s hs).1) hne
    intro c hc
    rw [ht'eq] at hc
    exact ((pyStrip_eq_self_iff t').mp (h t' ht'mem).2).2 c hc

theorem mem_insertByLeft (w x : RecognizedWord) (l : List RecognizedWord) :
    x ∈ insertByLeft w l ↔ x = w ∨ x ∈ l := by
  induction l with
  | nil => simp [insertByLeft]
  | cons y ys ih =>
    by_cases hle : w.left ≤ y.left
    · simp [insertByLeft, hle]
    · simp only [insertByLeft, hle, if_false, List.mem_cons, ih]
      tauto

theorem mem_sortByLeft (x : RecognizedWord) (l : List RecognizedWord) :
    x ∈ sortByLeft l ↔ x ∈ l := by
  induction l with
  | nil => simp [sortByLeft]
  | cons w ws ih =>
    simp [sortByLeft, mem_insertByLeft, ih]

theorem insertByLeft_ne_nil (w : RecognizedWord) (l : List RecognizedWord) :
    insertByLeft w l ≠ [] := by
  cases l with
  | nil => simp [insertByLeft]
  | cons y ys =>
    unfold insertByLeft
    split <;> simp

theorem sortByLeft_cons_ne_nil (v : RecognizedWord) (vs : List RecognizedWord) :
    sortByLeft (v :: vs) ≠ [] :=
  insertByLeft_ne_nil v (sortByLeft vs)

theorem find?_eq_none_of_filter_eq_nil (p : RecognizedWord → Bool)
    (l : List RecognizedWord) (h : l.filter p = []) : l.find? p = none := by
  rw [List.find?_eq_none]
  intro x hx
  intro hpx
  have : x ∈ l.filter p := List.mem_filter.mpr ⟨hx, hpx⟩
  rw [h] at this
  exact absurd this (List.not_mem_nil x)

theorem find?_eq_head_of_filter (p : RecognizedWord → Bool)
    (l : List RecognizedWord) (a : RecognizedWord) (t : List RecognizedWord)
    (h : l.filter p = a :: t) : l.find? p = some a := by
  induction l generalizing t with
  | nil => simp [List.filter] at h
  | cons c cs ih =>
    rw [List.filter_cons] at h
    by_cases hc : p c = true
    · simp only [hc, if_true, List.cons.injEq] at h
      rw [List.find?_cons_of_pos _ hc, h.1]
    · simp only [hc, if_false] at h
      rw [List.find?_cons_of_neg _ (by simpa using hc)]
      exact ih _ h

theorem findDate_nil : findDate [] = none := rfl

theorem findDate_cons (c : Char) (cs : List Char) :
    findDate (c :: cs) =
      match dateHere (c :: cs) with
      | some m => some m
      | none => findDate cs := rfl

theorem dateShape_iff_dateChars (m : List Char) :
    dateShape m = true ↔ dateChars m := by
  constructor
  · intro h
    unfold dateShape at h
    simp only [Bool.and_eq_true, beq_iff_eq] at h
    have hlen : m.length = 10 := h.1.1.1.1.1.1.1.1.1.1
    rcases m with _ | ⟨a, m⟩; · simp at hlen
    rcases m with _ | ⟨b, m⟩; · simp at hlen
    rcases m with _ | ⟨s1, m⟩; · simp at hlen
    rcases m with _ | ⟨c, m⟩; · simp at hlen
    rcases m with _ | ⟨d, m⟩; · simp at hlen
    rcases m with _ | ⟨s2, m⟩; · simp at hlen
    rcases m with _ | ⟨e, m⟩; · simp at hlen
    rcases m with _ | ⟨f, m⟩; · simp at hlen
    rcases m with _ | ⟨g, m⟩; · simp at hlen
    rcases m with _ | ⟨h10, rest⟩; · simp at hlen
    simp only [List.length_cons] at hlen
    have hrest : rest = [] := List.length_eq_zero.mp (by omega)
    subst hrest
    obtain ⟨⟨⟨⟨⟨⟨⟨⟨⟨⟨-, h0⟩, h1⟩, hs2⟩, h3⟩, h4⟩, hs5⟩, h6⟩, h7⟩, h8⟩, h9⟩ := h
    have e1 : (s1 == '/') = true := hs2
    have e2 : (s2 == '/') = true := hs5
    have d0 : isDigitChar a = true := h0
    have d1 : isDigitChar b = true := h1
    have d3 : isDigitChar c = true := h3
    have d4 : isDigitChar d = true := h4
    have d6 : isDigitChar e = true := h6
    have d7 : isDigitChar f = true := h7
    have d8 : isDigitChar g = true := h8
    have d9 : isDigitChar h10 = true := h9
    refine ⟨a, b, c, d, e, f, g, h10, ?_, d0, d1, d3, d4, d6, d7, d8, d9⟩
    rw [beq_iff_eq.mp e1, beq_iff_eq.mp e2]
  · rintro ⟨a, b, c, d, e, f, g, h10, rfl,
      d0, d1, d3, d4, d6, d7, d8, d9⟩
    unfold dateShape
    simp only [Bool.and_eq_true, beq_iff_eq]
    exact ⟨⟨⟨⟨⟨⟨⟨⟨⟨⟨by simp, d0⟩, d1⟩, by rfl⟩, d3⟩, d4⟩, by rfl⟩, d6⟩,
      d7⟩, d8⟩, d9⟩

theorem dateHere_eq_some_iff (l m : List Char) :
    dateHere l = some m ↔ dateChars m ∧ l.take 10 = m := by
  unfold dateHere
  by_cases h : dateShape (l.take 10) = true
  · simp only [h, if_true, Option.some.injEq]
    constructor
    · intro hm
      refine ⟨?_, hm⟩
      rw [← hm]
      exact (dateShape_iff_dateChars _).mp h
    · intro hm
      exact hm.2
  · simp only [h, if_false]
    constructor
    · intro hm; exact absurd hm (by simp)
    · rintro ⟨hch, htake⟩
      exact absurd (htake ▸ (dateShape_iff_dateChars _).mpr hch) h

theorem dateAt_zero_iff (l m : List Char) :
    dateAt l 0 m ↔ dateHere l = some m := by
  rw [dateHere_eq_some_iff]
  unfold dateAt
  rw [List.drop_zero]

theorem dateAt_succ_iff (c : Char) (cs : List Char) (i : Nat) (m : List Char) :
    dateAt (c :: cs) (i + 1) m ↔ dateAt cs i m := by
  unfold dateAt
  rw [List.drop_succ_cons]

theorem dateChars_ne_nil (m : List Char) (h : dateChars m) : m ≠ [] := by
  obtain ⟨a, b, c, d, e, f, g, h10, rfl, -⟩ := h
  simp

theorem findDate_eq_none_no_match (l : List Char) (h : findDate l = none) :
    ∀ i m, ¬ dateAt l i m := by
  induction l with
  | nil =>
    rintro i m ⟨hch, htake⟩
    obtain ⟨a, b, c, d, e, f, g, h10, rfl, -⟩ := hch
    simp at htake
  | cons c cs ih =>
    intro i m
    rw [findDate_cons] at h
    cases hd : dateHere (c :: cs) with
    | some m0 => rw [hd] at h; exact absurd h (by simp)
    | none =>
      simp only [hd] at h
      cases i with
      | zero =>
        intro hm
        exact absurd ((dateAt_zero_iff _ _).mp hm) (by simp [hd])
      | succ i =>
        intro hm
        exact ih h i m ((dateAt_succ_iff _ _ _ _).mp hm)

theorem findDate_eq_some_leftmost (l m : List Char) (h : findDate l = some m) :
    ∃ i, dateAt l i m ∧ ∀ j, j < i → ∀ m2, ¬ dateAt l j m2 := by
  induction l with
  | nil => rw [findDate_nil] at h; exact absurd h (by simp)
  | cons c cs ih =>
    rw [findDate_cons] at h
    cases hd : dateHere (c :: cs) with
    | some m0 =>
      simp only [hd, Option.some.injEq] at h
      refine ⟨0, (dateAt_zero_iff _ _).mpr (by rw [hd, h]), ?_⟩
      intro j hj
      omega
    | none =>
      simp only [hd] at h
      obtain ⟨i, hi, hmin⟩ := ih h
      refine ⟨i + 1, (dateAt_succ_iff _ _ _ _).mpr hi, ?_⟩
      intro j hj m2 hm2
      cases j with
      | zero =>
        exact absurd ((dateAt_zero_iff _ _).mp hm2) (by simp [hd])
      | succ k =>
        exact hmin k (by omega) m2 ((dateAt_succ_iff _ _ _ _).mp hm2)

theorem findDate_some_shape (l m : List Char) (h : findDate l = some m) :
    dateChars m := by
  obtain ⟨i, hi, -⟩ := findDate_eq_some_leftmost l m h
  exact hi.1

theorem dateAt_leftmost_unique (l : List Char) (i : Nat) (m : List Char)
    (i0 : Nat) (m0 : List Char)
    (h : dateAt l i m) (hmin : ∀ j, j < i → ∀ m2, ¬ dateAt l j m2)
    (h0 : dateAt l i0 m0) (hmin0 : ∀ j, j < i0 → ∀ m2, ¬ dateAt l j m2) :
    m = m0 := by
  have hii : i = i0 := by
    by_contra hne
    rcases Nat.lt_or_ge i i0 with hlt | hge
    · exact hmin0 i hlt m h
    · exact hmin i0 (by omega) m0 h0
  subst hii
  rw [← h.2, h0.2]


theorem found_value_nil (ocr_df : List RecognizedWord) (lab : RecognizedWord)
    (max_distance_x : Int)
    (hv : ocr_df.filter (inSearchArea lab max_distance_x) = []) :
    found_value ocr_df lab max_distance_x = naoEncontrado := by
  unfold found_value
  rw [hv]

theorem found_value_cons (ocr_df : List RecognizedWord) (lab : RecognizedWord)
    (max_distance_x : Int) (v : RecognizedWord) (vs : List RecognizedWord)
    (hv : ocr_df.filter (inSearchArea lab max_distance_x) = v :: vs) :
    found_value ocr_df lab max_distance_x =
      pyStrip (joinSpace ((sortByLeft (v :: vs)).map RecognizedWord.text)) := by
  unfold found_value
  rw [hv]

theorem find_value_nil (ocr_df : List RecognizedWord)
    (label_test : String → Bool) (max_distance_x : Int)
    (hf : ocr_df.filter (fun w => label_test w.text) = []) :
    find_value_near_label ocr_df label_test max_distance_x = naoEncontrado := by
  unfold find_value_near_label
  rw [hf]

theorem find_value_cons (ocr_df : List RecognizedWord)
    (label_test : String → Bool) (max_distance_x : Int)
    (lab : RecognizedWord) (rest : List RecognizedWord)
    (hf : ocr_df.filter (fun w => label_test w.text) = lab :: rest) :
    find_value_near_label ocr_df label_test max_distance_x =
      found_value ocr_df lab max_distance_x := by
  unfold find_value_near_label
  rw [hf]

theorem spec_collect_nil (words : List RecognizedWord) (lab : RecognizedWord)
    (max_distance_x : Int)
    (hv : words.filter (inSearchArea lab max_distance_x) = []) :
    spec_collect words lab max_distance_x = naoEncontrado := by
  unfold spec_collect
  rw [hv]

theorem spec_collect_cons (words : List RecognizedWord) (lab : RecognizedWord)
    (max_distance_x : Int) (v : RecognizedWord) (vs : List RecognizedWord)
    (hv : words.filter (inSearchArea lab max_distance_x) = v :: vs) :
    spec_collect words lab max_distance_x =
      joinSpace ((sortByLeft (v :: vs)).map RecognizedWord.text) := by
  unfold spec_collect
  rw [hv]

theorem spec_find_value_none (words : List RecognizedWord)
    (label_test : String → Bool) (max_distance_x : Int)
    (hf : words.find? (fun w => label_test w.text) = none) :
    spec_find_value words label_test max_distance_x = naoEncontrado := by
  unfold spec_find_value
  rw [hf]

theorem spec_find_value_some (words : List RecognizedWord)
    (label_test : String → Bool) (max_distance_x : Int) (lab : RecognizedWord)
    (hf : words.find? (fun w => label_test w.text) = some lab) :
    spec_find_value words label_test max_distance_x =
      spec_collect words lab max_distance_x := by
  unfold spec_find_value
  rw [hf]

theorem collected_texts_sanitized (ocr_df : List RecognizedWord)
    (lab : RecognizedWord) (max_distance_x : Int)
    (v : RecognizedWord) (vs : List RecognizedWord)
    (h : ∀ w ∈ ocr_df, sanitizedWord w.text)
    (hv : ocr_df.filter (inSearchArea lab max_distance_x) = v :: vs) :
    ∀ s ∈ (sortByLeft (v :: vs)).map RecognizedWord.text, sanitizedWord s := by
  intro s hs
  rw [List.mem_map] at hs
  obtain ⟨w, hw, rfl⟩ := hs
  have hw2 : w ∈ v :: vs := (mem_sortByLeft w (v :: vs)).mp hw
  rw [← hv] at hw2
  exact h w (List.mem_filter.mp hw2).1

theorem found_value_ne_empty (ocr_df : List RecognizedWord)
    (lab : RecognizedWord) (max_distance_x : Int)
    (h : ∀ w ∈ ocr_df, sanitizedWord w.text) :
    found_value ocr_df lab max_distance_x ≠ "" := by
  cases hv : ocr_df.filter (inSearchArea lab max_distance_x) with
  | nil =>
    rw [found_value_nil ocr_df lab max_distance_x hv]
    decide
  | cons v vs =>
    rw [found_value_cons ocr_df lab max_distance_x v vs hv,
      pyStrip_joinSpace _
        (fun hn => sortByLeft_cons_ne_nil v vs (List.map_eq_nil_iff.mp hn))
        (collected_texts_sanitized ocr_df lab max_distance_x v vs h hv)]
    cases hs : sortByLeft (v :: vs) with
    | nil => exact absurd hs (sortByLeft_cons_ne_nil v vs)
    | cons t ws =>
      rw [List.map_cons]
      apply joinSpace_ne_empty
      have ht : t ∈ v :: vs := (mem_sortByLeft t (v :: vs)).mp (by rw [hs]; simp)
      rw [← hv] at ht
      exact (h t (List.mem_filter.mp ht).1).1

theorem find_value_ne_empty (ocr_df : List RecognizedWord)
    (label_test : String → Bool) (max_distance_x : Int)
    (h : ∀ w ∈ ocr_df, sanitizedWord w.text) :
    find_value_near_label ocr_df label_test max_distance_x ≠ "" := by
  cases hf : ocr_df.filter (fun w => label_test w.text) with
  | nil =>
    rw [find_value_nil ocr_df label_test max_distance_x hf]
    decide
  | cons lab rest =>
    rw [find_value_cons ocr_df label_test max_distance_x lab rest hf]
    exact found_value_ne_empty ocr_df lab max_distance_x h

/-- C1: for every word table whose texts are as the structured-mode Text
Acquirer delivers them (nonempty and stripped, `sanitizedWord` — the
invariant `extract_text_from_image` establishes for every RecognizedWord of
this pipeline), and for every label pattern and per-field maximum distance,
the spatial locator `find_value_near_label` coincides with the locator the
specification describes (`spec_find_value`): first word whose text matches
the label, search rectangle of vertical band center ± height and horizontal
band from the label's right edge to that edge plus the maximum distance,
collected words sorted left-to-right and joined by single spaces, the
"Não encontrado" sentinel when no label matches or nothing is collected.
(On such texts the final `.strip()` of the source is the identity, which
this theorem proves.) -/
theorem c1_find_value_near_label_matches_spec (ocr_df : List RecognizedWord)
    (label_test : String → Bool) (max_distance_x : Int)
    (h : ∀ w ∈ ocr_df, sanitizedWord w.text) :
    find_value_near_label ocr_df label_test max_distance_x =
      spec_find_value ocr_df label_test max_distance_x := by
  cases hf : ocr_df.filter (fun w => label_test w.text) with
  | nil =>
    rw [find_value_nil ocr_df label_test max_distance_x hf,
      spec_find_value_none ocr_df label_test max_distance_x
        (find?_eq_none_of_filter_eq_nil _ _ hf)]
  | cons lab rest =>
    rw [find_value_cons ocr_df label_test max_distance_x lab rest hf,
      spec_find_value_some ocr_df label_test max_distance_x lab
        (find?_eq_head_of_filter _ _ _ _ hf)]
    cases hv : ocr_df.filter (inSearchArea lab max_distance_x) with
    | nil =>
      rw [found_value_nil ocr_df lab max_distance_x hv,
        spec_collect_nil ocr_df lab max_distance_x hv]
    | cons v vs =>
      rw [found_value_cons ocr_df lab max_distance_x v vs hv,
        spec_collect_cons ocr_df lab max_distance_x v vs hv]
      exact pyStrip_joinSpace _
        (fun hn => sortByLeft_cons_ne_nil v vs (List.map_eq_nil_iff.mp hn))
        (collected_texts_sanitized ocr_df lab max_distance_x v vs h hv)

/-- Witness for C1 at a concrete table and label pattern. -/
theorem c1_find_value_near_label_matches_spec_witness :
    find_value_near_label
        [⟨"Guia Principal", 100, 50, 80, 20⟩, ⟨"12345", 190, 48, 40, 20⟩]
        patGuiaPrincipal 200 =
      spec_find_value
        [⟨"Guia Principal", 100, 50, 80, 20⟩, ⟨"12345", 190, 48, 40, 20⟩]
        patGuiaPrincipal 200 :=
  c1_find_value_near_label_matches_spec _ patGuiaPrincipal 200 (by decide)

theorem date_postprocess_some (s : String) (m : List Char)
    (h : findDate s.data = some m) : date_postprocess s = String.mk m := by
  unfold date_postprocess
  rw [h]

theorem date_postprocess_none (s : String) (h : findDate s.data = none) :
    date_postprocess s = s := by
  unfold date_postprocess
  rw [h]

theorem date_postprocess_ne_empty (s : String) (hs : s ≠ "") :
    date_postprocess s ≠ "" := by
  cases hfd : findDate s.data with
  | none => rw [date_postprocess_none s hfd]; exact hs
  | some m =>
    rw [date_postprocess_some s m hfd]
    intro hh
    exact dateChars_ne_nil m (findDate_some_shape _ m hfd)
      (by simpa using (string_eq_empty_iff _).mp hh)

theorem extract_empty :
    extract_medical_data_from_structure [] =
      { numeroGuia := ocrFalhou, registroANS := ocrFalhou,
        dataAutorizacao := ocrFalhou, nome := ocrFalhou } := rfl

theorem extract_cons (w : RecognizedWord) (ws : List RecognizedWord) :
    extract_medical_data_from_structure (w :: ws) =
      { numeroGuia := find_value_near_label (w :: ws) patGuiaPrincipal 250,
        registroANS := find_value_near_label (w :: ws) patRegistroANS 200,
        dataAutorizacao :=
          date_postprocess (find_value_near_label (w :: ws) patAutorizacao 250),
        nome := find_value_near_label (w :: ws) patNome 600 } := rfl

/-- C2: for every input OCR word table whose texts are as the structured-mode
Text Acquirer delivers them (nonempty and stripped — the invariant
`extract_text_from_image` establishes, see C6), including the empty table,
the extraction produces a record with exactly the four fixed fields (the
`ExtractionRecord` structure: four total `String` fields, so none can be
absent or null), and every field is a nonempty string: a matched value or
one of the sentinels `"Não encontrado"` / `"OCR falhou"` — never an empty
placeholder. -/
theorem c2_record_fields_never_empty (ocr_df : List RecognizedWord)
    (h : ∀ w ∈ ocr_df, sanitizedWord w.text) :
    (extract_medical_data_from_structure ocr_df).numeroGuia ≠ "" ∧
    (extract_medical_data_from_structure ocr_df).registroANS ≠ "" ∧
    (extract_medical_data_from_structure ocr_df).dataAutorizacao ≠ "" ∧
    (extract_medical_data_from_structure ocr_df).nome ≠ "" := by
  cases ocr_df with
  | nil => decide
  | cons w ws =>
    rw [extract_cons]
    exact ⟨find_value_ne_empty _ _ _ h, find_value_ne_empty _ _ _ h,
      date_postprocess_ne_empty _ (find_value_ne_empty _ _ _ h),
      find_value_ne_empty _ _ _ h⟩

/-- Witness for C2 at a concrete one-word table. -/
theorem c2_record_fields_never_empty_witness :
    (extract_medical_data_from_structure [⟨"Guia", 0, 0, 10, 10⟩]).numeroGuia ≠ "" ∧
    (extract_medical_data_from_structure [⟨"Guia", 0, 0, 10, 10⟩]).registroANS ≠ "" ∧
    (extract_medical_data_from_structure [⟨"Guia", 0, 0, 10, 10⟩]).dataAutorizacao ≠ "" ∧
    (extract_medical_data_from_structure [⟨"Guia", 0, 0, 10, 10⟩]).nome ≠ "" :=
  c2_record_fields_never_empty [⟨"Guia", 0, 0, 10, 10⟩] (by decide)

/-- C5: for the specific three-word input of the claim — a label word at
(left=100, top=50, width=80, height=20) whose text matches the label
pattern, and two value words at (left=190, top=48, width=40, height=20) and
(left=240, top=50, width=30, height=20) whose texts are as OCR delivers
them (nonempty, stripped) — with maximum horizontal distance 200, the
spatial strategy returns exactly the two value words' texts joined by a
single space, in left-to-right order. -/
theorem c5_three_word_spatial_scenario (label_test : String → Bool)
    (t0 t1 t2 : String) (h0 : label_test t0 = true)
    (h1 : sanitizedWord t1) (h2 : sanitizedWord t2) :
    find_value_near_label
        [⟨t0, 100, 50, 80, 20⟩, ⟨t1, 190, 48, 40, 20⟩, ⟨t2, 240, 50, 30, 20⟩]
        label_test 200 =
      t1 ++ " " ++ t2 := by
  have hfil : List.filter (fun w => label_test w.text)
      ([⟨t0, 100, 50, 80, 20⟩, ⟨t1, 190, 48, 40, 20⟩,
        ⟨t2, 240, 50, 30, 20⟩] : List RecognizedWord) =
      ⟨t0, 100, 50, 80, 20⟩ :: List.filter (fun w => label_test w.text)
        ([⟨t1, 190, 48, 40, 20⟩, ⟨t2, 240, 50, 30, 20⟩] : List RecognizedWord) := by
    rw [List.filter_cons]
    simp [h0]
  rw [find_value_cons _ _ _ _ _ hfil]
  show pyStrip (joinSpace ([t1, t2])) = t1 ++ " " ++ t2
  exact pyStrip_joinSpace [t1, t2] (by simp)
    (by
      intro s hs
      rcases List.mem_cons.mp hs with rfl | hs2
      · exact h1
      · rcases List.mem_singleton.mp hs2 with rfl
        exact h2)

/-- Witness for C5 with concrete texts. -/
theorem c5_three_word_spatial_scenario_witness :
    find_value_near_label
        [⟨"Guia", 100, 50, 80, 20⟩, ⟨"ABC", 190, 48, 40, 20⟩,
         ⟨"DEF", 240, 50, 30, 20⟩]
        (fun s => s == "Guia") 200 =
      "ABC" ++ " " ++ "DEF" :=
  c5_three_word_spatial_scenario (fun s => s == "Guia") ("Guia") ("ABC") ("DEF")
    (by decide) (by decide) (by decide)

theorem inSearchArea_false_of_left_lt (lab : RecognizedWord) (d : Int)
    (w : RecognizedWord) (h : w.left < lab.left + lab.width) :
    inSearchArea lab d w = false := by
  unfold inSearchArea
  have hc : decide (lab.left + lab.width ≤ w.left) = false :=
    decide_eq_false (by omega)
  simp [hc]

theorem extract_nome_of_ne_nil (ocr_df : List RecognizedWord)
    (h : ocr_df ≠ []) :
    (extract_medical_data_from_structure ocr_df).nome =
      find_value_near_label ocr_df patNome 600 := by
  cases ocr_df with
  | nil => exact absurd rfl h
  | cons w ws => rw [extract_cons]

/-- C4: for every document in which the decoy "Nome Social" material — any
words `decoy` whose texts do not contain the anchored Name label pattern
`10\s*-\s*Nome` (true of the decoy label words "Nome"/"Social" and of any
ordinary decoy value) and which lie before the real label, i.e. left of its
right edge — is placed immediately before the real Name label `lab` (any
word whose text matches the pattern), followed by any remaining words
`rest`, the Beneficiary Name field resolves exactly to the value of the
real Name field: it equals the value the locator computes on the document
with the decoy excised, so the decoy's words can never contribute to it —
no decoy word can be chosen as the label anchor, and none can fall in the
real label's search rectangle, which starts at the label's right edge. -/
theorem c4_decoy_social_name_never_wins (decoy rest : List RecognizedWord)
    (lab : RecognizedWord)
    (hdecoy_pat : ∀ w ∈ decoy, patNome w.text = false)
    (hdecoy_pos : ∀ w ∈ decoy, w.left < lab.left + lab.width)
    (hlab : patNome lab.text = true) :
    (extract_medical_data_from_structure (decoy ++ lab :: rest)).nome =
      find_value_near_label (lab :: rest) patNome 600 ∧
    find_value_near_label (decoy ++ lab :: rest) patNome 600 =
      find_value_near_label (lab :: rest) patNome 600 := by
  have hlabels1 : (decoy ++ lab :: rest).filter (fun w => patNome w.text) =
      lab :: rest.filter (fun w => patNome w.text) := by
    rw [List.filter_append]
    have h0 : decoy.filter (fun w => patNome w.text) = [] := by
      rw [List.filter_eq_nil_iff]
      intro a ha
      simp [hdecoy_pat a ha]
    rw [h0, List.nil_append, List.filter_cons]
    simp [hlab]
  have hlabels2 : (lab :: rest).filter (fun w => patNome w.text) =
      lab :: rest.filter (fun w => patNome w.text) := by
    rw [List.filter_cons]
    simp [hlab]
  have hvals : (decoy ++ lab :: rest).filter (inSearchArea lab 600) =
      (lab :: rest).filter (inSearchArea lab 600) := by
    rw [List.filter_append]
    have h0 : decoy.filter (inSearchArea lab 600) = [] := by
      rw [List.filter_eq_nil_iff]
      intro a ha
      simp [inSearchArea_false_of_left_lt lab 600 a (hdecoy_pos a ha)]
    rw [h0, List.nil_append]
  have hfv : find_value_near_label (decoy ++ lab :: rest) patNome 600 =
      find_value_near_label (lab :: rest) patNome 600 := by
    rw [find_value_cons _ _ _ _ _ hlabels1, find_value_cons _ _ _ _ _ hlabels2]
    unfold found_value
    rw [hvals]
  refine ⟨?_, hfv⟩
  rw [extract_nome_of_ne_nil _ (by cases decoy <;> simp), hfv]

/-- Witness for C4: the synthetic decoy-adjacent layout of the spec (decoy
label "Nome" "Social" with value "MARIA" before the real label "10-Nome"
with value words "JOAO" "SILVA" to its right); the Name field resolves to
"JOAO SILVA", never to "MARIA". -/
theorem c4_decoy_social_name_never_wins_witness :
    ((extract_medical_data_from_structure
        ([⟨"Nome", 0, 100, 40, 20⟩, ⟨"Social", 45, 100, 50, 20⟩,
          ⟨"MARIA", 100, 100, 60, 20⟩] ++
          ⟨"10-Nome", 200, 100, 70, 20⟩ ::
            [⟨"JOAO", 280, 100, 40, 20⟩, ⟨"SILVA", 330, 100, 45, 20⟩])).nome =
      find_value_near_label
        (⟨"10-Nome", 200, 100, 70, 20⟩ ::
          [⟨"JOAO", 280, 100, 40, 20⟩, ⟨"SILVA", 330, 100, 45, 20⟩])
        patNome 600 ∧
     find_value_near_label
        ([⟨"Nome", 0, 100, 40, 20⟩, ⟨"Social", 45, 100, 50, 20⟩,
          ⟨"MARIA", 100, 100, 60, 20⟩] ++
          ⟨"10-Nome", 200, 100, 70, 20⟩ ::
            [⟨"JOAO", 280, 100, 40, 20⟩, ⟨"SILVA", 330, 100, 45, 20⟩])
        patNome 600 =
      find_value_near_label
        (⟨"10-Nome", 200, 100, 70, 20⟩ ::
          [⟨"JOAO", 280, 100, 40, 20⟩, ⟨"SILVA", 330, 100, 45, 20⟩])
        patNome 600) ∧
    find_value_near_label
        (⟨"10-Nome", 200, 100, 70, 20⟩ ::
          [⟨"JOAO", 280, 100, 40, 20⟩, ⟨"SILVA", 330, 100, 45, 20⟩])
        patNome 600 = "JOAO SILVA" :=
  ⟨c4_decoy_social_name_never_wins
      [⟨"Nome", 0, 100, 40, 20⟩, ⟨"Social", 45, 100, 50, 20⟩,
       ⟨"MARIA", 100, 100, 60, 20⟩]
      [⟨"JOAO", 280, 100, 40, 20⟩, ⟨"SILVA", 330, 100, 45, 20⟩]
      ⟨"10-Nome", 200, 100, 70, 20⟩
      (by decide) (by decide) (by decide),
    by decide⟩

/-- C10: on every nonempty word table, the Guide Number, Registry ID and
Name fields are exactly the raw spatially joined texts, while the
Authorization Date field alone is post-processed: when the raw joined text
has a (leftmost) substring of shape two digits, slash, two digits, slash,
four digits (`dateAt`, the declarative reading of `\d{2}/\d{2}/\d{4}`), the
field is exactly that first substring; when no position matches, the field
is the raw joined text unchanged. -/
theorem c10_only_date_field_postprocessed (ocr_df : List RecognizedWord)
    (hdf : ocr_df ≠ []) :
    ((extract_medical_data_from_structure ocr_df).numeroGuia =
        find_value_near_label ocr_df patGuiaPrincipal 250) ∧
    ((extract_medical_data_from_structure ocr_df).registroANS =
        find_value_near_label ocr_df patRegistroANS 200) ∧
    ((extract_medical_data_from_structure ocr_df).nome =
        find_value_near_label ocr_df patNome 600) ∧
    (∀ i m, dateAt (find_value_near_label ocr_df patAutorizacao 250).data i m →
      (∀ j, j < i →
        ∀ m2, ¬ dateAt (find_value_near_label ocr_df patAutorizacao 250).data j m2) →
      (extract_medical_data_from_structure ocr_df).dataAutorizacao = String.mk m) ∧
    ((∀ i m, ¬ dateAt (find_value_near_label ocr_df patAutorizacao 250).data i m) →
      (extract_medical_data_from_structure ocr_df).dataAutorizacao =
        find_value_near_label ocr_df patAutorizacao 250) := by
  cases ocr_df with
  | nil => exact absurd rfl hdf
  | cons w ws =>
    rw [extract_cons]
    refine ⟨rfl, rfl, rfl, ?_, ?_⟩
    · intro i m hm hmin
      show date_postprocess (find_value_near_label (w :: ws) patAutorizacao 250) =
        String.mk m
      cases hfd :
          findDate (find_value_near_label (w :: ws) patAutorizacao 250).data with
      | none => exact absurd hm (findDate_eq_none_no_match _ hfd i m)
      | some m0 =>
        rw [date_postprocess_some _ m0 hfd]
        obtain ⟨i0, h0, hmin0⟩ := findDate_eq_some_leftmost _ m0 hfd
        rw [dateAt_leftmost_unique _ i m i0 m0 hm hmin h0 hmin0]
    · intro hno
      show date_postprocess (find_value_near_label (w :: ws) patAutorizacao 250) =
        find_value_near_label (w :: ws) patAutorizacao 250
      cases hfd :
          findDate (find_value_near_label (w :: ws) patAutorizacao 250).data with
      | some m0 =>
        obtain ⟨i0, h0, -⟩ := findDate_eq_some_leftmost _ m0 hfd
        exact absurd h0 (hno i0 m0)
      | none => exact date_postprocess_none _ hfd

/-- Witness for C10 at a concrete two-word table holding a date. -/
theorem c10_only_date_field_postprocessed_witness :
    ((extract_medical_data_from_structure
        [⟨"Autorizacao", 0, 0, 50, 10⟩, ⟨"12/05/2024", 60, 0, 40, 10⟩]).numeroGuia =
      find_value_near_label
        [⟨"Autorizacao", 0, 0, 50, 10⟩, ⟨"12/05/2024", 60, 0, 40, 10⟩]
        patGuiaPrincipal 250) ∧
    ((extract_medical_data_from_structure
        [⟨"Autorizacao", 0, 0, 50, 10⟩, ⟨"12/05/2024", 60, 0, 40, 10⟩]).registroANS =
      find_value_near_label
        [⟨"Autorizacao", 0, 0, 50, 10⟩, ⟨"12/05/2024", 60, 0, 40, 10⟩]
        patRegistroANS 200) ∧
    ((extract_medical_data_from_structure
        [⟨"Autorizacao", 0, 0, 50, 10⟩, ⟨"12/05/2024", 60, 0, 40, 10⟩]).nome =
      find_value_near_label
        [⟨"Autorizacao", 0, 0, 50, 10⟩, ⟨"12/05/2024", 60, 0, 40, 10⟩]
        patNome 600) ∧
    (∀ i m,
      dateAt (find_value_near_label
        [⟨"Autorizacao", 0, 0, 50, 10⟩, ⟨"12/05/2024", 60, 0, 40, 10⟩]
        patAutorizacao 250).data i m →
      (∀ j, j < i →
        ∀ m2, ¬ dateAt (find_value_near_label
          [⟨"Autorizacao", 0, 0, 50, 10⟩, ⟨"12/05/2024", 60, 0, 40, 10⟩]
          patAutorizacao 250).data j m2) →
      (extract_medical_data_from_structure
        [⟨"Autorizacao", 0, 0, 50, 10⟩,
         ⟨"12/05/2024", 60, 0, 40, 10⟩]).dataAutorizacao = String.mk m) ∧
    ((∀ i m, ¬ dateAt (find_value_near_label
        [⟨"Autorizacao", 0, 0, 50, 10⟩, ⟨"12/05/2024", 60, 0, 40, 10⟩]
        patAutorizacao 250).data i m) →
      (extract_medical_data_from_structure
        [⟨"Autorizacao", 0, 0, 50, 10⟩,
         ⟨"12/05/2024", 60, 0, 40, 10⟩]).dataAutorizacao =
      find_value_near_label
        [⟨"Autorizacao", 0, 0, 50, 10⟩, ⟨"12/05/2024", 60, 0, 40, 10⟩]
        patAutorizacao 250) :=
  c10_only_date_field_postprocessed
    [⟨"Autorizacao", 0, 0, 50, 10⟩, ⟨"12/05/2024", 60, 0, 40, 10⟩] (by decide)

theorem extract_text_from_image_eq (ocr_rows : List OcrEntry) :
    extract_text_from_image ocr_rows =
      (((ocr_rows.filter (fun r => r.text.isSome)).filter
          (fun r => decide (30 < r.conf))).map
        (fun r => ({ text := pyStrip (r.text.getD ""), left := r.left,
                     top := r.top, width := r.width,
                     height := r.height } : RecognizedWord))).filter
        (fun w => w.text != "") := rfl

/-- C6 counterexample: an entry with text "hi" and confidence exactly 30 is
not below the minimum threshold of 30, so the claim retains it, but the code
(`conf > 30`) drops it: the structured filter returns the empty table where
the claim's filter returns the entry. -/
theorem c6_confidence_exactly_30_counterexample :
    extract_text_from_image [⟨some ("hi"), 30, 1, 2, 3, 4⟩] = [] ∧
    claim_structured_filter [⟨some ("hi"), 30, 1, 2, 3, 4⟩] =
      [⟨"hi", 1, 2, 3, 4⟩] := by decide

/-- C6 amended: the structured-mode output retains exactly the entries whose
text is present and not whitespace-only and whose confidence strictly
exceeds 30 (so confidence exactly 30 is dropped), each with its text
stripped of surrounding whitespace. -/
theorem c6_structured_filter_characterization (ocr_rows : List OcrEntry) :
    extract_text_from_image ocr_rows = spec_structured_filter ocr_rows := by
  induction ocr_rows with
  | nil => rfl
  | cons r rs ih =>
    rw [extract_text_from_image_eq] at ih ⊢
    cases hrt : r.text with
    | none =>
      have h1 : ((((r :: rs).filter (fun r => r.text.isSome)).filter
            (fun r => decide (30 < r.conf))).map
          (fun r => ({ text := pyStrip (r.text.getD ""), left := r.left,
                       top := r.top, width := r.width,
                       height := r.height } : RecognizedWord))).filter
          (fun w => w.text != "") =
          (((rs.filter (fun r => r.text.isSome)).filter
            (fun r => decide (30 < r.conf))).map
          (fun r => ({ text := pyStrip (r.text.getD ""), left := r.left,
                       top := r.top, width := r.width,
                       height := r.height } : RecognizedWord))).filter
          (fun w => w.text != "") := by
        rw [List.filter_cons]
        simp [hrt]
      have h2 : spec_structured_filter (r :: rs) = spec_structured_filter rs := by
        unfold spec_structured_filter
        rw [List.filterMap_cons]
        simp [hrt]
      rw [h1, h2, ih]
    | some t =>
      by_cases hc : 30 < r.conf
      · by_cases hst : pyStrip t = ""
        · have h1 : ((((r :: rs).filter (fun r => r.text.isSome)).filter
              (fun r => decide (30 < r.conf))).map
            (fun r => ({ text := pyStrip (r.text.getD ""), left := r.left,
                         top := r.top, width := r.width,
                         height := r.height } : RecognizedWord))).filter
            (fun w => w.text != "") =
            (((rs.filter (fun r => r.text.isSome)).filter
              (fun r => decide (30 < r.conf))).map
            (fun r => ({ text := pyStrip (r.text.getD ""), left := r.left,
                         top := r.top, width := r.width,
                         height := r.height } : RecognizedWord))).filter
            (fun w => w.text != "") := by
            rw [List.filter_cons]
            simp [hrt, List.filter_cons, hc, List.map_cons, List.filter_cons, hst]
          have h2 : spec_structured_filter (r :: rs) = spec_structured_filter rs := by
            unfold spec_structured_filter
            rw [List.filterMap_cons]
            simp [hrt, hst]
          rw [h1, h2, ih]
        · have h1 : ((((r :: rs).filter (fun r => r.text.isSome)).filter
              (fun r => decide (30 < r.conf))).map
            (fun r => ({ text := pyStrip (r.text.getD ""), left := r.left,
                         top := r.top, width := r.width,
                         height := r.height } : RecognizedWord))).filter
            (fun w => w.text != "") =
            ({ text := pyStrip t, left := r.left, top := r.top,
               width := r.width, height := r.height } : RecognizedWord) ::
            (((rs.filter (fun r => r.text.isSome)).filter
              (fun r => decide (30 < r.conf))).map
            (fun r => ({ text := pyStrip (r.text.getD ""), left := r.left,
                         top := r.top, width := r.width,
                         height := r.height } : RecognizedWord))).filter
            (fun w => w.text != "") := by
            rw [List.filter_cons]
            simp [hrt, List.filter_cons, hc, List.map_cons, List.filter_cons, hst]
          have h2 : spec_structured_filter (r :: rs) =
              ({ text := pyStrip t, left := r.left, top := r.top,
                 width := r.width, height := r.height } : RecognizedWord) ::
              spec_structured_filter rs := by
            unfold spec_structured_filter
            rw [List.filterMap_cons]
            simp [hrt, hst, hc]
          rw [h1, h2, ih]
      · have h1 : ((((r :: rs).filter (fun r => r.text.isSome)).filter
            (fun r => decide (30 < r.conf))).map
          (fun r => ({ text := pyStrip (r.text.getD ""), left := r.left,
                       top := r.top, width := r.width,
                       height := r.height } : RecognizedWord))).filter
          (fun w => w.text != "") =
          (((rs.filter (fun r => r.text.isSome)).filter
            (fun r => decide (30 < r.conf))).map
          (fun r => ({ text := pyStrip (r.text.getD ""), left := r.left,
                       top := r.top, width := r.width,
                       height := r.height } : RecognizedWord))).filter
          (fun w => w.text != "") := by
          rw [List.filter_cons]
          simp [hrt, List.filter_cons, hc]
        have h2 : spec_structured_filter (r :: rs) = spec_structured_filter rs := by
          unfold spec_structured_filter
          rw [List.filterMap_cons]
          simp [hrt, hc]
        rw [h1, h2, ih]

theorem batchProcess_nil : batchProcess [] = [] := rfl

theorem batchProcess_cons (f : UploadedFile) (fs : List UploadedFile) :
    batchProcess (f :: fs) =
      if (process_uploaded_file f).isEmpty then batchProcess fs
      else { arquivo := f.name,
             record := extract_medical_data_from_structure
               (process_uploaded_file f) } :: batchProcess fs := rfl

/-- C7 counterexample: two decodable PDF documents with the same embedded
text of 60 characters (well above the claimed 50-character threshold) but
different OCR oracles produce different outputs — so the embedded text is
not "used directly" and OCR is not "skipped entirely"; the code has no
embedded-text path at all. -/
theorem c7_long_embedded_text_still_ocr_counterexample :
    (String.mk (List.replicate 60 ('A'))).length = 60 ∧
    process_uploaded_file
        ⟨"doc.pdf", FileKind.pdf,
          [⟨String.mk (List.replicate 60 ('A')),
            [⟨some ("OCRWORD"), 90, 5, 5, 30, 10⟩]⟩], true⟩ ≠
      process_uploaded_file
        ⟨"doc.pdf", FileKind.pdf,
          [⟨String.mk (List.replicate 60 ('A')), []⟩], true⟩ := by decide

/-- C7 amended: every decodable document, PDF or image, is routed through
rasterization of its first page plus OCR, whatever its embedded text `e` is
(the result does not mention `e`): there is no classifier and no path that
skips OCR in this version. -/
theorem c7_every_decoded_document_is_ocr_routed (name : String)
    (kind : FileKind) (e : String) (rows : List OcrEntry)
    (rest : List PdfPage) :
    process_uploaded_file ⟨name, kind, ⟨e, rows⟩ :: rest, true⟩ =
      extract_text_from_image rows := rfl

/-- C9: for every PDF document only the first page is rasterized and OCR'd;
replacing all subsequent pages leaves both the OCR word table and the
extraction record produced for the document unchanged. -/
theorem c9_only_first_pdf_page_influences_record (name : String) (d : Bool)
    (pg : PdfPage) (rest rest2 : List PdfPage) :
    process_uploaded_file ⟨name, FileKind.pdf, pg :: rest, d⟩ =
      process_uploaded_file ⟨name, FileKind.pdf, pg :: rest2, d⟩ ∧
    extract_medical_data_from_structure
        (process_uploaded_file ⟨name, FileKind.pdf, pg :: rest, d⟩) =
      extract_medical_data_from_structure
        (process_uploaded_file ⟨name, FileKind.pdf, pg :: rest2, d⟩) := by
  cases d with
  | false => exact ⟨rfl, rfl⟩
  | true => exact ⟨rfl, rfl⟩

/-- C3 counterexample: a batch holding one corrupt document (decoding
raises; the boundary catches it and yields the empty table) produces an
empty output batch — no record with "error"-sentinel fields is appended for
the failed document, contrary to the claim. -/
theorem c3_failed_document_appends_no_record_counterexample :
    batchProcess [⟨"corrupt.pdf", FileKind.pdf, [], false⟩] = [] := by decide

/-- C3 amended: a document whose processing fails is caught at the document
boundary (its pipeline yields the empty word table) and is skipped with a
warning — no record at all is appended for it — while the remaining
documents are processed exactly as if it were absent; the failure never
terminates the batch. -/
theorem c3_failed_document_skipped_batch_continues (name : String)
    (kind : FileKind) (pages : List PdfPage) (fs : List UploadedFile) :
    batchProcess (⟨name, kind, pages, false⟩ :: fs) = batchProcess fs := by
  rw [batchProcess_cons]
  have hp : process_uploaded_file ⟨name, kind, pages, false⟩ = [] := rfl
  rw [hp]
  simp

/-- C8 counterexample: for the two-document batch [corrupt document, good
document], the output holds a single record (for the good document), so the
sequence of records does not equal the sequence of the two input documents. -/
theorem c8_order_not_equal_on_failure_counterexample :
    (batchProcess
        [⟨"corrupt.pdf", FileKind.pdf, [], false⟩,
         ⟨"good.png", FileKind.image,
           [⟨"", [⟨some ("Hello"), 95, 0, 0, 10, 10⟩]⟩], true⟩]).map
        OutRow.arquivo ≠
      [("corrupt.pdf"), ("good.png")] := by decide

/-- C8 amended: the output batch consists of exactly one record per document
whose pipeline yields a nonempty word table, in the order of the input
documents; documents that fail or whose OCR finds nothing contribute no
record, and the relative order of the remaining records equals the relative
order of their source documents. -/
theorem c8_records_follow_input_order (files : List UploadedFile) :
    batchProcess files =
      (files.filter (fun f => !(process_uploaded_file f).isEmpty)).map
        (fun f => { arquivo := f.name,
                    record := extract_medical_data_from_structure
                      (process_uploaded_file f) }) := by
  induction files with
  | nil => rfl
  | cons f fs ih =>
    rw [batchProcess_cons, List.filter_cons]
    cases hemp : (process_uploaded_file f).isEmpty with
    | true => simp [hemp, ih]
    | false => simp [hemp, ih]
